import Mathlib

/-!
# Verification of the trading-execution-engine core

Shallow embedding, over `ℚ`, of the position-sizing, risk-limit and
simulated-execution logic of the repository:

* `RiskMgr`  — `src/trading_execution_engine/risk/manager.py`
* `PM`       — `src/trading_execution_engine/execution/portfolio_manager.py`
* `PT`       — `src/trading_execution_engine/execution/paper_trader.py`
* `DR`       — `src/trading_execution_engine/execution/dry_run_trading_engine.py`

Python floats are modelled as exact rationals; Python dicts keyed by symbol
are modelled as insertion-ordered association lists; `datetime` values are
modelled as natural numbers (no claim depends on them).  Python's
`ZeroDivisionError` is modelled with an `Except` result where the code can
actually raise.
-/

/-- Association-list update mirroring Python dict assignment `d[k] = v`:
replace in place when the key exists, append otherwise. -/
def setKey {α : Type} (l : List (String × α)) (k : String) (v : α) :
    List (String × α) :=
  if l.any (fun e => e.1 == k) then
    l.map (fun e => if e.1 == k then (k, v) else e)
  else
    l ++ [(k, v)]

/-- Association-list deletion mirroring Python `del d[k]`. -/
def eraseKey {α : Type} (l : List (String × α)) (k : String) :
    List (String × α) :=
  l.filter (fun e => !(e.1 == k))

/-- Python's `round(x, d)` on a rational (nearest multiple of `10^(-d)`;
Python rounds ties to even, this model rounds ties up — no claim depends on
tie behaviour). -/
def roundq (d : ℕ) (x : ℚ) : ℚ :=
  ((⌊x * 10 ^ d + 1 / 2⌋ : ℤ) : ℚ) / 10 ^ d

/-- Division that signals Python's `ZeroDivisionError` on a zero
denominator. -/
def qdiv (a b : ℚ) : Except String ℚ :=
  if b = 0 then .error "ZeroDivisionError" else .ok (a / b)

theorem qdiv_ok {b : ℚ} (a : ℚ) (hb : b ≠ 0) : qdiv a b = .ok (a / b) := by
  simp [qdiv, hb]

/-- Python's `str.upper()` on the ASCII action strings the engine
compares against (`String.toUpper` itself does not reduce in the kernel,
so the character map is spelled out). -/
def pyUpper (s : String) : String := ⟨s.data.map Char.toUpper⟩

/-! ## `risk/manager.py` — the `RiskManager` class -/

namespace RiskMgr

/-- A trading signal as consumed by `RiskManager.validate_signal` and
`PaperTrader.execute_signal`; `signal.get("action","").upper()` is embedded
as `pyUpper`, the optional `stop_loss` key as an `Option`. -/
structure Signal where
  symbol : String
  action : String
  quantity : ℚ
  price : ℚ
  stopLoss : Option ℚ
deriving DecidableEq, Repr

/-- The `type` field of a risk-violation record.  The Python record also
carries a timestamp and a details payload; the claims concern only the
type, so only it is embedded. -/
inductive ViolationType where
  | invalidSignalParameters
  | positionSizeExceeded
  | dailyLossLimitExceeded
  | concentrationRiskExceeded
  | missingStopLoss
  | stopLossTooWide
deriving DecidableEq, Repr

/-- One entry of `RiskManager.current_positions`. -/
structure RMPosition where
  quantity : ℤ
  avgPrice : ℚ
  value : ℚ
deriving DecidableEq, Repr

/-- State of a `RiskManager` after `reset_daily_limits` has run:
`maxPositionSize` and `maxDailyLoss` are the absolute rupee limits stored in
`daily_limits`; the `..Pct` fields are the configured percentages. -/
structure RMState where
  maxPositionSizePct : ℚ
  maxDailyLossPct : ℚ
  stopLossPct : ℚ
  maxConcentrationPct : ℚ
  totalCapital : ℚ
  maxPositionSize : ℚ
  maxDailyLoss : ℚ
  dailyPnl : ℚ
  currentPositions : List (String × RMPosition)
  riskViolations : List ViolationType
deriving DecidableEq, Repr

/-- `RiskManager.reset_daily_limits`: recompute the absolute daily limits
from the configured percentages and clear P&L and the violation log. -/
def resetDailyLimits (st : RMState) : RMState :=
  { st with
    maxDailyLoss := st.totalCapital * (st.maxDailyLossPct / 100)
    maxPositionSize := st.totalCapital * (st.maxPositionSizePct / 100)
    dailyPnl := 0
    riskViolations := [] }

/-- `RiskManager._log_violation` (the same record is appended to
`self.risk_violations` and `self.daily_limits["violations"]`; one list
models both). -/
def logViolation (st : RMState) (v : ViolationType) : RMState :=
  { st with riskViolations := st.riskViolations ++ [v] }

/-- The exposure recorded for `symbol`:
`current_positions.get(symbol, {}).get("value", 0)`. -/
def currentExposure (st : RMState) (symbol : String) : ℚ :=
  ((st.currentPositions.lookup symbol).map (·.value)).getD 0

/-- The post-trade exposure computed by
`RiskManager._validate_concentration_risk`. -/
def newExposure (st : RMState) (symbol : String) (positionValue : ℚ)
    (action : String) : ℚ :=
  if action = "BUY" then currentExposure st symbol + positionValue
  else max 0 (currentExposure st symbol - positionValue)

/-- `RiskManager._validate_concentration_risk`. -/
def validateConcentrationRisk (st : RMState) (symbol : String)
    (positionValue : ℚ) (action : String) : Bool × RMState :=
  let ne := newExposure st symbol positionValue action
  let concentrationPct := ne / st.totalCapital * 100
  if concentrationPct > st.maxConcentrationPct then
    (false, logViolation st .concentrationRiskExceeded)
  else
    (true, st)

/-- `RiskManager._validate_stop_loss`; Python's `if not stop_loss` treats
both a missing key and a stored 0 as falsy. -/
def validateStopLoss (st : RMState) (sig : Signal) : Bool × RMState :=
  match sig.stopLoss with
  | none => (false, logViolation st .missingStopLoss)
  | some sl =>
    if sl = 0 then (false, logViolation st .missingStopLoss)
    else
      let pct :=
        if pyUpper sig.action = "BUY" then (sig.price - sl) / sig.price * 100
        else (sl - sig.price) / sig.price * 100
      if pct > st.stopLossPct then (false, logViolation st .stopLossTooWide)
      else (true, st)

/-- The structural check of `validate_signal`:
`all([symbol, action in ["BUY","SELL"], quantity > 0, price > 0])`. -/
def basicOk (sig : Signal) : Prop :=
  sig.symbol ≠ "" ∧ (pyUpper sig.action = "BUY" ∨ pyUpper sig.action = "SELL") ∧
    0 < sig.quantity ∧ 0 < sig.price

instance (sig : Signal) : Decidable (basicOk sig) := by
  unfold basicOk; infer_instance

/-- `RiskManager.validate_signal`: the five checks in source order,
returning the pass/fail verdict together with the state carrying any
appended violation. -/
def validateSignal (st : RMState) (sig : Signal) : Bool × RMState :=
  if ¬ basicOk sig then
    (false, logViolation st .invalidSignalParameters)
  else
    let positionValue := sig.quantity * sig.price
    if positionValue > st.maxPositionSize then
      (false, logViolation st .positionSizeExceeded)
    else if st.dailyPnl < -st.maxDailyLoss then
      (false, logViolation st .dailyLossLimitExceeded)
    else
      match validateConcentrationRisk st sig.symbol positionValue
          (pyUpper sig.action) with
      | (false, st1) => (false, st1)
      | (true, st1) => validateStopLoss st1 sig

/-- `RiskManager.update_position`. -/
def updatePosition (st : RMState) (symbol : String) (action : String)
    (quantity : ℤ) (price : ℚ) : RMState :=
  let position := (st.currentPositions.lookup symbol).getD ⟨0, 0, 0⟩
  let position' :=
    if pyUpper action = "BUY" then
      let totalQuantity := position.quantity + quantity
      let totalValue :=
        (position.quantity : ℚ) * position.avgPrice + (quantity : ℚ) * price
      { quantity := totalQuantity
        avgPrice := if totalQuantity > 0 then totalValue / (totalQuantity : ℚ)
                    else 0
        value := totalValue : RMPosition }
    else if pyUpper action = "SELL" then
      let q' := max 0 (position.quantity - quantity)
      if q' = 0 then ⟨0, 0, 0⟩
      else { quantity := q', avgPrice := position.avgPrice,
             value := (q' : ℚ) * position.avgPrice }
    else position
  { st with currentPositions := setKey st.currentPositions symbol position' }

/-- `RiskManager.is_trading_halted`. -/
def isTradingHalted (st : RMState) : Bool :=
  if st.dailyPnl < -st.maxDailyLoss then true
  else if st.riskViolations.length > 10 then true
  else false

/-- The first failing check of `validate_signal`, written declaratively in
the fixed order the spec states (structural, position size, daily loss,
concentration, stop loss).  This is the spec-shaped description that
`validateSignal` is compared against. -/
def firstFailingCheck (st : RMState) (sig : Signal) : Option ViolationType :=
  if ¬ basicOk sig then some .invalidSignalParameters
  else if sig.quantity * sig.price > st.maxPositionSize then
    some .positionSizeExceeded
  else if st.dailyPnl < -st.maxDailyLoss then some .dailyLossLimitExceeded
  else if newExposure st sig.symbol (sig.quantity * sig.price)
      (pyUpper sig.action) / st.totalCapital * 100 > st.maxConcentrationPct then
    some .concentrationRiskExceeded
  else
    match sig.stopLoss with
    | none => some .missingStopLoss
    | some sl =>
      if sl = 0 then some .missingStopLoss
      else if (if pyUpper sig.action = "BUY" then
            (sig.price - sl) / sig.price * 100
          else (sl - sig.price) / sig.price * 100) > st.stopLossPct then
        some .stopLossTooWide
      else none

/-- `validateSignal` refines `firstFailingCheck`: it accepts without
touching the violation log exactly when no check fails, and otherwise
rejects after appending exactly the first failing check's violation. -/
theorem validateSignal_spec (st : RMState) (sig : Signal) :
    validateSignal st sig =
      match firstFailingCheck st sig with
      | none => (true, st)
      | some v => (false, logViolation st v) := by
  unfold validateSignal firstFailingCheck validateConcentrationRisk
    validateStopLoss
  rcases hsl : sig.stopLoss with _ | sl <;> simp only [hsl] <;>
    split_ifs <;> simp_all

end RiskMgr

/-! ## `execution/portfolio_manager.py` — sizing, `Portfolio`, performance -/

namespace PM

/-- `PositionSizeMethod` enum. -/
inductive PositionSizeMethod where
  | equalWeight
  | riskParity
  | kellyCriterion
  | volatilityTarget
deriving DecidableEq, Repr

/-- The sizing `RiskManager` of `portfolio_manager.py` (constructor
defaults: 10% max position, 2% portfolio risk, 5% stop loss, 15% take
profit, all stored as fractions). -/
structure PMRisk where
  maxPositionSize : ℚ := 1 / 10
  maxPortfolioRisk : ℚ := 1 / 50
  stopLossPct : ℚ := 1 / 20
  takeProfitPct : ℚ := 3 / 20
deriving DecidableEq, Repr

/-- `RiskManager.calculate_position_size`.  The trailing `return 0.0` of
the Python function is unreachable (the four enum cases are exhaustive),
so the Lean match has no extra branch. -/
def calculatePositionSize (rm : PMRisk) (portfolioValue entryPrice
    volatility confidence : ℚ) (method : PositionSizeMethod) : ℚ :=
  match method with
  | .equalWeight => portfolioValue * rm.maxPositionSize / entryPrice
  | .riskParity =>
    let targetRisk := portfolioValue * rm.maxPortfolioRisk
    let positionRisk := volatility * entryPrice
    if positionRisk > 0 then
      min (targetRisk / positionRisk)
        (portfolioValue * rm.maxPositionSize / entryPrice)
    else
      portfolioValue * rm.maxPositionSize / entryPrice
  | .volatilityTarget =>
    let targetVol : ℚ := 1 / 50
    let confidenceMultiplier := confidence
    if volatility > 0 then
      let positionValue :=
        portfolioValue * targetVol * confidenceMultiplier / volatility
      min (positionValue / entryPrice)
        (portfolioValue * rm.maxPositionSize / entryPrice)
    else
      portfolioValue * rm.maxPositionSize / entryPrice
  | .kellyCriterion =>
    let winRate := confidence
    let avgWin : ℚ := 1 / 10
    let avgLoss : ℚ := 1 / 20
    if avgLoss > 0 then
      let kellyFraction := (winRate * avgWin - (1 - winRate) * avgLoss) / avgWin
      let kf := max 0 (min kellyFraction rm.maxPositionSize)
      portfolioValue * kf / entryPrice
    else
      portfolioValue * rm.maxPositionSize / entryPrice

/-- The `Position` dataclass of `portfolio_manager.py`. -/
structure PMPosition where
  ticker : String
  shares : ℚ
  entryPrice : ℚ
  currentPrice : ℚ
  entryDate : ℕ
  strategy : String
  confidence : ℚ
deriving DecidableEq, Repr

/-- `Position.market_value`. -/
def PMPosition.marketValue (p : PMPosition) : ℚ := p.shares * p.currentPrice

/-- `Position.unrealized_return`. -/
def PMPosition.unrealizedReturn (p : PMPosition) : ℚ :=
  (p.currentPrice - p.entryPrice) / p.entryPrice

/-- The `Trade` dataclass of `portfolio_manager.py`. -/
structure PMTrade where
  ticker : String
  action : String
  shares : ℚ
  price : ℚ
  timestamp : ℕ
  strategy : String
  reason : String
  commission : ℚ
deriving DecidableEq, Repr

/-- The `Portfolio` class state.  `daily_values`/`daily_returns` are the
performance-tracking lists filled by the backtest driver. -/
structure Portfolio where
  initialCapital : ℚ
  cash : ℚ
  positions : List (String × PMPosition)
  trades : List PMTrade
  commissionRate : ℚ
  riskManager : PMRisk
  positionSizeMethod : PositionSizeMethod
  dailyValues : List ℚ
  dailyReturns : List ℚ
deriving DecidableEq, Repr

/-- `Portfolio.portfolio_value`: cash plus the sum of position market
values. -/
def portfolioValue (pf : Portfolio) : ℚ :=
  pf.cash + (pf.positions.map (fun e => e.2.marketValue)).sum

/-- `Portfolio.total_return`. -/
def totalReturn (pf : Portfolio) : ℚ :=
  (portfolioValue pf / pf.initialCapital - 1) * 100

/-- `RiskManager.should_stop_loss`. -/
def shouldStopLoss (rm : PMRisk) (p : PMPosition) : Prop :=
  p.unrealizedReturn ≤ -rm.stopLossPct

instance (rm : PMRisk) (p : PMPosition) : Decidable (shouldStopLoss rm p) := by
  unfold shouldStopLoss; infer_instance

/-- `RiskManager.should_take_profit`. -/
def shouldTakeProfit (rm : PMRisk) (p : PMPosition) : Prop :=
  p.unrealizedReturn ≥ rm.takeProfitPct

instance (rm : PMRisk) (p : PMPosition) : Decidable (shouldTakeProfit rm p) := by
  unfold shouldTakeProfit; infer_instance

/-- `Portfolio.execute_trade`: returns the Python function's boolean
result together with the updated portfolio. -/
def executeTrade (pf : Portfolio) (ticker action : String) (price : ℚ)
    (timestamp : ℕ) (strategy : String) (confidence : ℚ) (reason : String)
    (volatility : ℚ := 1 / 50) : Bool × Portfolio :=
  if action = "BUY" then
    let positionSize := calculatePositionSize pf.riskManager
      (portfolioValue pf) price volatility confidence pf.positionSizeMethod
    let cost := positionSize * price
    let commission := cost * pf.commissionRate
    let totalCost := cost + commission
    if totalCost ≤ pf.cash then
      let newPositions :=
        match pf.positions.lookup ticker with
        | some oldPosition =>
          let totalShares := oldPosition.shares + positionSize
          let avgPrice := (oldPosition.shares * oldPosition.entryPrice +
            positionSize * price) / totalShares
          setKey pf.positions ticker
            { ticker := ticker, shares := totalShares, entryPrice := avgPrice,
              currentPrice := price, entryDate := oldPosition.entryDate,
              strategy := strategy,
              confidence := max oldPosition.confidence confidence }
        | none =>
          pf.positions ++ [(ticker,
            { ticker := ticker, shares := positionSize, entryPrice := price,
              currentPrice := price, entryDate := timestamp,
              strategy := strategy, confidence := confidence })]
      let trade : PMTrade :=
        { ticker := ticker, action := action, shares := positionSize,
          price := price, timestamp := timestamp, strategy := strategy,
          reason := reason, commission := commission }
      (true, { pf with
        cash := pf.cash - totalCost,
        positions := newPositions,
        trades := pf.trades ++ [trade] })
    else
      (false, pf)
  else if action = "SELL" then
    match pf.positions.lookup ticker with
    | some position =>
      let proceeds := position.shares * price
      let commission := proceeds * pf.commissionRate
      let netProceeds := proceeds - commission
      let trade : PMTrade :=
        { ticker := ticker, action := action, shares := position.shares,
          price := price, timestamp := timestamp, strategy := strategy,
          reason := reason, commission := commission }
      (true, { pf with
        cash := pf.cash + netProceeds,
        trades := pf.trades ++ [trade],
        positions := eraseKey pf.positions ticker })
    | none => (false, pf)
  else
    (false, pf)

/-- The price update performed inside the `apply_risk_management` loop:
`position.current_price = current_prices[ticker]` for marked tickers. -/
def updatePriceEntry (prices : String → Option ℚ) (e : String × PMPosition) :
    String × PMPosition :=
  match prices e.1 with
  | some p => (e.1, { e.2 with currentPrice := p })
  | none => e

/-- Whether the (price-updated) entry is collected into
`positions_to_close`. -/
def closesEntry (rm : PMRisk) (prices : String → Option ℚ)
    (e : String × PMPosition) : Prop :=
  (prices e.1).isSome ∧ (shouldStopLoss rm e.2 ∨ shouldTakeProfit rm e.2)

instance (rm : PMRisk) (prices : String → Option ℚ) (e : String × PMPosition) :
    Decidable (closesEntry rm prices e) := by
  unfold closesEntry; infer_instance

/-- One closing SELL of the second loop of `apply_risk_management`: the
strategy and confidence are read back from the (still-open) position.  The
`none` fallback is unreachable because collected tickers are distinct keys
of the position map. -/
def sellClose (prices : String → Option ℚ) (timestamp : ℕ) (pf : Portfolio)
    (tr : String × String) : Portfolio :=
  match pf.positions.lookup tr.1 with
  | some pos =>
    (executeTrade pf tr.1 "SELL" ((prices tr.1).getD 0) timestamp
      pos.strategy pos.confidence tr.2).2
  | none => pf

/-- `Portfolio.apply_risk_management`: update marked prices, collect the
positions hitting stop-loss/take-profit, then close each with a SELL. -/
def applyRiskManagement (pf : Portfolio) (prices : String → Option ℚ)
    (timestamp : ℕ) : Portfolio :=
  let updated := pf.positions.map (updatePriceEntry prices)
  let positionsToClose :=
    (updated.filter (fun e => decide (closesEntry pf.riskManager prices e))).map
      (fun e => (e.1, if shouldStopLoss pf.riskManager e.2 then "Stop Loss"
        else "Take Profit"))
  positionsToClose.foldl (sellClose prices timestamp)
    { pf with positions := updated }

/-! ### `Portfolio.get_performance_metrics`

The float computation is embedded over `ℚ`, with `np.sqrt` kept as an
explicit parameter `sq : ℚ → ℚ` (the claims about this function concern
only which guards fire and which divisions are reached, and those depend
only on the sign of `sq`, never on its numeric value; `Rat.sqrt`, which has
the same sign behaviour as the float square root, instantiates it in
concrete evaluations).  Each division the Python code performs goes through
`qdiv`, so a zero denominator surfaces as an `Except.error`. -/

/-- `np.cumprod(1 + returns / 100)`. -/
def cumprodAux (acc : ℚ) : List ℚ → List ℚ
  | [] => []
  | r :: rs => (acc * (1 + r / 100)) :: cumprodAux (acc * (1 + r / 100)) rs

/-- Cumulative growth factors of a percent-return series. -/
def cumprod (returns : List ℚ) : List ℚ := cumprodAux 1 returns

/-- `np.maximum.accumulate`, after its first element. -/
def runMaxAux (m : ℚ) : List ℚ → List ℚ
  | [] => []
  | x :: xs => max m x :: runMaxAux (max m x) xs

/-- `np.maximum.accumulate`. -/
def runMax : List ℚ → List ℚ
  | [] => []
  | x :: xs => x :: runMaxAux x xs

/-- `(cumulative - running_max) / running_max * 100`, elementwise, each
division checked. -/
def drawdownsE : List (ℚ × ℚ) → Except String (List ℚ)
  | [] => .ok []
  | p :: ps =>
    match qdiv (p.1 - p.2) p.2 with
    | .error e => .error e
    | .ok d =>
      match drawdownsE ps with
      | .error e => .error e
      | .ok ds => .ok ((d * 100) :: ds)

/-- `np.min` on a list (the drawdown list is nonempty whenever it is
used). -/
def listMin : List ℚ → ℚ
  | [] => 0
  | x :: xs => xs.foldl min x

/-- `np.mean`, as a plain rational (used only to state properties; the
computation itself divides through `qdiv`). -/
def meanQ (l : List ℚ) : ℚ := l.sum / (l.length : ℚ)

/-- Population variance `np.std(l) ^ 2`, as a plain rational. -/
def varQ (l : List ℚ) : ℚ :=
  ((l.map (fun x => (x - meanQ l) ^ 2)).sum) / (l.length : ℚ)

/-- The winning-trade condition of the win-rate computation: a SELL trade
such that some currently open position has this ticker and an entry price
below the trade price. -/
def winningSellB (pf : Portfolio) (t : PMTrade) : Bool :=
  t.action == "SELL" && pf.positions.any (fun e =>
    decide (0 < t.price - e.2.entryPrice) && (e.2.ticker == t.ticker))

/-- The metric dictionary returned on a series of two or more samples. -/
structure PerfMetrics where
  totalReturnPct : ℚ
  volatilityPct : ℚ
  sharpeRatio : ℚ
  maxDrawdownPct : ℚ
  winRatePct : ℚ
  totalTrades : ℕ
  currentPositions : ℕ
  cashPct : ℚ
deriving DecidableEq, Repr

/-- Result of `get_performance_metrics`: the empty dictionary or the full
metric set. -/
inductive PerfResult where
  | empty
  | metrics (m : PerfMetrics)
deriving DecidableEq, Repr

/-- `Portfolio.get_performance_metrics`.  `np.mean`/`np.std` divide by the
series length, which the early `< 2` return guarantees nonzero, so they are
written with `meanQ`/`varQ` directly; every other division the Python
performs (total return by initial capital, the Sharpe denominator, the
drawdown running maxima, the win-rate denominator, and cash utilization by
total value) goes through `qdiv` and surfaces a zero denominator as an
error. -/
def getPerformanceMetrics (sq : ℚ → ℚ) (pf : Portfolio) :
    Except String PerfResult :=
  if pf.dailyReturns.length < 2 then .ok .empty
  else
    let returns := pf.dailyReturns
    match qdiv (portfolioValue pf) pf.initialCapital with
    | .error e => .error e
    | .ok ret =>
      let totalReturnV := (ret - 1) * 100
      let mu := meanQ returns
      let var := varQ returns
      let std := sq var
      let volatility := std * sq 252 * 100
      match (if 0 < std then qdiv (mu * 252) (std * sq 252)
          else .ok 0) with
      | .error e => .error e
      | .ok sharpe =>
        let cumulative := cumprod returns
        let runningMax := runMax cumulative
        match drawdownsE (cumulative.zip runningMax) with
        | .error e => .error e
        | .ok drawdowns =>
          let maxDrawdown := listMin drawdowns
          let winningTrades :=
            (pf.trades.filter (fun t => winningSellB pf t)).length
          let totalTrades :=
            (pf.trades.filter (fun t => t.action == "SELL")).length
          match (if 0 < totalTrades then
              qdiv (winningTrades : ℚ) (totalTrades : ℚ)
            else .ok 0) with
          | .error e => .error e
          | .ok winRatio =>
            let winRate :=
              if 0 < totalTrades then winRatio * 100 else 0
            match qdiv pf.cash (portfolioValue pf) with
            | .error e => .error e
            | .ok cashRatio =>
              .ok (.metrics
                { totalReturnPct := roundq 2 totalReturnV
                  volatilityPct := roundq 2 volatility
                  sharpeRatio := roundq 3 sharpe
                  maxDrawdownPct := roundq 2 maxDrawdown
                  winRatePct := roundq 2 winRate
                  totalTrades := pf.trades.length
                  currentPositions := pf.positions.length
                  cashPct := roundq 2 (cashRatio * 100) })

end PM

/-! ## `execution/paper_trader.py` — the `PaperTrader` class -/

namespace PT

/-- One entry of `PaperTrader.portfolio`. -/
structure PTPosition where
  quantity : ℚ
  avgPrice : ℚ
  totalCost : ℚ
  realizedPnl : ℚ
deriving DecidableEq, Repr

/-- The trade record appended to `PaperTrader.trades`; `realizedPnl` is
`some` exactly when `_update_portfolio` set the `realized_pnl` key (a SELL
that does not exceed the held quantity). -/
structure PTTrade where
  symbol : String
  action : String
  quantity : ℚ
  signalPrice : ℚ
  executionPrice : ℚ
  tradeValue : ℚ
  commission : ℚ
  totalCost : ℚ
  realizedPnl : Option ℚ
  pnl : ℚ
deriving DecidableEq, Repr

/-- `PaperTrader` state. -/
structure PTState where
  enabled : Bool
  initialCapital : ℚ
  availableCapital : ℚ
  commissionPerTrade : ℚ
  slippageBps : ℚ
  portfolio : List (String × PTPosition)
  trades : List PTTrade
  dailyPnl : ℚ
deriving DecidableEq, Repr

/-- Result dictionary of `PaperTrader.execute_signal`. -/
structure PTResult where
  executed : Bool
  reason : String
deriving DecidableEq, Repr

/-- `PaperTrader._update_portfolio`: returns the updated position map and
the realized P&L recorded on the trade (set only on a covered SELL; an
oversell only logs a warning and leaves the position untouched, though the
zeroed entry created for an unknown symbol remains). -/
def updatePortfolio (portfolio : List (String × PTPosition))
    (symbol action : String) (quantity tradeValue commission
    tradeTotalCost : ℚ) : List (String × PTPosition) × Option ℚ :=
  let position := (portfolio.lookup symbol).getD ⟨0, 0, 0, 0⟩
  if action = "BUY" then
    let totalQuantity := position.quantity + quantity
    let totalCost := position.totalCost + tradeTotalCost
    let position' : PTPosition :=
      { quantity := totalQuantity
        avgPrice := if totalQuantity > 0 then totalCost / totalQuantity else 0
        totalCost := totalCost
        realizedPnl := position.realizedPnl }
    (setKey portfolio symbol position', none)
  else if action = "SELL" then
    if position.quantity ≥ quantity then
      let avgCost := position.avgPrice
      let sellProceeds := tradeValue - commission
      let costBasis := avgCost * quantity
      let realizedPnl := sellProceeds - costBasis
      let position' : PTPosition :=
        { quantity := position.quantity - quantity
          avgPrice := position.avgPrice
          totalCost := position.totalCost - costBasis
          realizedPnl := position.realizedPnl + realizedPnl }
      (setKey portfolio symbol position', some realizedPnl)
    else
      (setKey portfolio symbol position, none)
  else
    (setKey portfolio symbol position, none)

/-- `PaperTrader.execute_signal`. -/
def executeSignal (st : PTState) (sig : RiskMgr.Signal) :
    PTResult × PTState :=
  if ¬ st.enabled then
    ({ executed := false, reason := "Paper trading disabled" }, st)
  else if ¬ RiskMgr.basicOk sig then
    ({ executed := false, reason := "Invalid signal parameters" }, st)
  else
    let action := pyUpper sig.action
    let slippageFactor := 1 + st.slippageBps / 10000
    let executionPrice :=
      if action = "BUY" then sig.price * slippageFactor
      else sig.price / slippageFactor
    let tradeValue := executionPrice * sig.quantity
    let totalCost := tradeValue + st.commissionPerTrade
    if action = "BUY" ∧ totalCost > st.availableCapital then
      ({ executed := false, reason := "Insufficient capital" }, st)
    else
      let upd := updatePortfolio st.portfolio sig.symbol action sig.quantity
        tradeValue st.commissionPerTrade totalCost
      let availableCapital' :=
        if action = "BUY" then st.availableCapital - totalCost
        else st.availableCapital + tradeValue - st.commissionPerTrade
      let pnl :=
        if action = "BUY" then (sig.price - executionPrice) * sig.quantity
        else upd.2.getD 0
      let trade : PTTrade :=
        { symbol := sig.symbol, action := action, quantity := sig.quantity,
          signalPrice := sig.price, executionPrice := executionPrice,
          tradeValue := tradeValue, commission := st.commissionPerTrade,
          totalCost := totalCost, realizedPnl := upd.2, pnl := pnl }
      ({ executed := true, reason := "" },
        { st with
          portfolio := upd.1
          availableCapital := availableCapital'
          dailyPnl := st.dailyPnl + pnl
          trades := st.trades ++ [trade] })

end PT

/-! ## `execution/dry_run_trading_engine.py` — the `DryRunTradingEngine` -/

namespace DR

/-- The `Position` dataclass of the dry-run engine. -/
structure DRPosition where
  symbol : String
  quantity : ℤ
  averagePrice : ℚ
  currentPrice : ℚ
  unrealizedPnl : ℚ
  realizedPnl : ℚ
  entryTime : ℕ
deriving DecidableEq, Repr

/-- The `SimulatedOrder` dataclass (`status`/`filled_quantity` keep their
`__post_init__` values). -/
structure SimOrder where
  orderId : String
  symbol : String
  quantity : ℤ
  orderType : String
  transactionType : String
  price : ℚ
  timestamp : ℕ
  status : String
  filledQuantity : ℤ
deriving DecidableEq, Repr

/-- `DryRunTradingEngine` state; `maxPositionSizeLimit` is
`risk_limits["max_position_size"]` (0.05 by construction). -/
structure DRState where
  initialCapital : ℚ
  availableCash : ℚ
  totalValue : ℚ
  positions : List (String × DRPosition)
  orders : List SimOrder
  tradesExecuted : ℕ
  winningTrades : ℕ
  totalPnl : ℚ
  maxDrawdown : ℚ
  peakValue : ℚ
  maxPositionSizeLimit : ℚ
deriving DecidableEq, Repr

/-- A freshly constructed engine with the given initial capital. -/
def initEngine (initialCapital : ℚ) : DRState :=
  { initialCapital := initialCapital
    availableCash := initialCapital
    totalValue := initialCapital
    positions := []
    orders := []
    tradesExecuted := 0
    winningTrades := 0
    totalPnl := 0
    maxDrawdown := 0
    peakValue := initialCapital
    maxPositionSizeLimit := 1 / 20 }

/-- `DryRunTradingEngine.calculate_transaction_cost` (brokerage 0.03%,
NSE charges 0.00345%, STT 0.025% on SELL only, 18% GST on brokerage). -/
def calculateTransactionCost (value : ℚ) (transactionType : String) : ℚ :=
  let brokerage := value * (3 / 10000)
  let exchangeCharges := value * (345 / 10000000)
  let stt := if transactionType = "SELL" then value * (25 / 100000) else 0
  let gst := brokerage * (18 / 100)
  brokerage + exchangeCharges + stt + gst

/-- `DryRunTradingEngine._execute_simulated_order`.  On a SELL whose
quantity exceeds the held quantity, or with no position, the method only
logs an error: the state is returned unchanged. -/
def executeSimulatedOrder (st : DRState) (order : SimOrder)
    (transactionCost : ℚ) : DRState :=
  if order.transactionType = "BUY" then
    let positions' :=
      match st.positions.lookup order.symbol with
      | some currentPos =>
        let totalQuantity := currentPos.quantity + order.quantity
        let totalCost := (currentPos.quantity : ℚ) * currentPos.averagePrice +
          (order.quantity : ℚ) * order.price
        let newAvgPrice := totalCost / (totalQuantity : ℚ)
        setKey st.positions order.symbol
          { currentPos with
            quantity := totalQuantity
            averagePrice := newAvgPrice }
      | none =>
        st.positions ++ [(order.symbol,
          { symbol := order.symbol, quantity := order.quantity,
            averagePrice := order.price, currentPrice := order.price,
            unrealizedPnl := 0, realizedPnl := 0,
            entryTime := order.timestamp })]
    { st with
      positions := positions'
      availableCash := st.availableCash -
        ((order.quantity : ℚ) * order.price + transactionCost) }
  else
    match st.positions.lookup order.symbol with
    | some position =>
      if order.quantity ≤ position.quantity then
        let realizedPnl := (order.price - position.averagePrice) *
          (order.quantity : ℚ) - transactionCost
        let quantity' := position.quantity - order.quantity
        let positions' :=
          if quantity' = 0 then eraseKey st.positions order.symbol
          else setKey st.positions order.symbol
            { position with
              quantity := quantity'
              realizedPnl := position.realizedPnl + realizedPnl }
        { st with
          positions := positions'
          totalPnl := st.totalPnl + realizedPnl
          availableCash := st.availableCash +
            ((order.quantity : ℚ) * order.price - transactionCost)
          tradesExecuted := st.tradesExecuted + 1
          winningTrades :=
            if 0 < realizedPnl then st.winningTrades + 1 else st.winningTrades }
      else
        st
    | none => st

/-- `DryRunTradingEngine.place_simulated_order`, with the market price
supplied as a parameter (`get_current_price` is I/O).  Returns the order id
on success (`none` models Python's `return None` rejection paths). -/
def placeSimulatedOrder (st : DRState) (symbol : String) (quantity : ℤ)
    (orderType transactionType : String) (limitPrice : Option ℚ)
    (currentPrice : Option ℚ) (timestamp : ℕ) : Option String × DRState :=
  match currentPrice with
  | none => (none, st)
  | some cp =>
    let executionPrice := if orderType = "LIMIT" then limitPrice.getD 0 else cp
    let orderValue := (quantity : ℚ) * executionPrice
    let transactionCost := calculateTransactionCost orderValue transactionType
    let totalCost := orderValue + transactionCost
    if transactionType = "BUY" ∧ totalCost > st.availableCash then
      (none, st)
    else if transactionType = "BUY" ∧
        totalCost / st.totalValue > st.maxPositionSizeLimit then
      (none, st)
    else
      let order : SimOrder :=
        { orderId := "DRY_" ++ symbol, symbol := symbol, quantity := quantity,
          orderType := orderType, transactionType := transactionType,
          price := executionPrice, timestamp := timestamp,
          status := "COMPLETE", filledQuantity := quantity }
      let st' := executeSimulatedOrder st order transactionCost
      (some order.orderId, { st' with orders := st'.orders ++ [order] })

/-- `DryRunTradingEngine.update_positions`, with the price feed supplied as
a map: update marked prices and unrealized P&L, recompute the recorded
total value from cash plus position value, and track peak and drawdown. -/
def updatePositions (st : DRState) (prices : String → Option ℚ) : DRState :=
  let positions' := st.positions.map (fun e =>
    match prices e.1 with
    | some currentPrice =>
      (e.1, { e.2 with
        currentPrice := currentPrice,
        unrealizedPnl := (currentPrice - e.2.averagePrice) * (e.2.quantity : ℚ) })
    | none => e)
  let positionValue :=
    (positions'.map (fun e => (e.2.quantity : ℚ) * e.2.currentPrice)).sum
  let totalValue' := st.availableCash + positionValue
  let peakValue' := if totalValue' > st.peakValue then totalValue'
    else st.peakValue
  let currentDrawdown := (peakValue' - totalValue') / peakValue'
  { st with
    positions := positions'
    totalValue := totalValue'
    peakValue := peakValue'
    maxDrawdown := max st.maxDrawdown currentDrawdown }

end DR

/-! ## Shared lemmas -/

/-- The sizing function is nonnegative and capped by
`maxPositionSize * portfolioValue` whenever the entry price is positive,
the portfolio value is nonnegative, confidence lies in `[0,1]` and the
configured fractions are nonnegative. -/
theorem calculatePositionSize_bounds (rm : PM.PMRisk) (pv p vol conf : ℚ)
    (method : PM.PositionSizeMethod) (hp : 0 < p) (hpv : 0 ≤ pv)
    (hc0 : 0 ≤ conf) (hm : 0 ≤ rm.maxPositionSize)
    (hr : 0 ≤ rm.maxPortfolioRisk) :
    0 ≤ PM.calculatePositionSize rm pv p vol conf method ∧
      PM.calculatePositionSize rm pv p vol conf method * p ≤
        rm.maxPositionSize * pv := by
  have hcap0 : 0 ≤ pv * rm.maxPositionSize / p :=
    div_nonneg (mul_nonneg hpv hm) hp.le
  have hcap : pv * rm.maxPositionSize / p * p = rm.maxPositionSize * pv := by
    rw [div_mul_cancel₀ _ hp.ne']; ring
  cases method with
  | equalWeight =>
    exact ⟨hcap0, le_of_eq hcap⟩
  | riskParity =>
    simp only [PM.calculatePositionSize]
    split_ifs with hrisk
    · refine ⟨le_min (div_nonneg (mul_nonneg hpv hr) hrisk.le) hcap0, ?_⟩
      calc min (pv * rm.maxPortfolioRisk / (vol * p))
            (pv * rm.maxPositionSize / p) * p
          ≤ pv * rm.maxPositionSize / p * p :=
            mul_le_mul_of_nonneg_right (min_le_right _ _) hp.le
        _ = rm.maxPositionSize * pv := hcap
    · exact ⟨hcap0, le_of_eq hcap⟩
  | volatilityTarget =>
    simp only [PM.calculatePositionSize]
    split_ifs with hvol
    · have hval : 0 ≤ pv * (1 / 50) * conf / vol :=
        div_nonneg (mul_nonneg (mul_nonneg hpv (by norm_num)) hc0) hvol.le
      refine ⟨le_min (div_nonneg hval hp.le) hcap0, ?_⟩
      calc min (pv * (1 / 50) * conf / vol / p)
            (pv * rm.maxPositionSize / p) * p
          ≤ pv * rm.maxPositionSize / p * p :=
            mul_le_mul_of_nonneg_right (min_le_right _ _) hp.le
        _ = rm.maxPositionSize * pv := hcap
    · exact ⟨hcap0, le_of_eq hcap⟩
  | kellyCriterion =>
    simp only [PM.calculatePositionSize]
    rw [if_pos (by norm_num : (1 : ℚ) / 20 > 0)]
    set kf := max 0 (min ((conf * (1 / 10) - (1 - conf) * (1 / 20)) / (1 / 10))
      rm.maxPositionSize) with hkf
    have hkf0 : 0 ≤ kf := le_max_left _ _
    have hkfm : kf ≤ rm.maxPositionSize :=
      max_le hm (min_le_right _ _)
    refine ⟨div_nonneg (mul_nonneg hpv hkf0) hp.le, ?_⟩
    calc pv * kf / p * p = pv * kf := by rw [div_mul_cancel₀ _ hp.ne']
      _ ≤ pv * rm.maxPositionSize := mul_le_mul_of_nonneg_left hkfm hpv
      _ = rm.maxPositionSize * pv := mul_comm _ _

/-- With nonpositive volatility and a positive entry price, the
risk-parity and volatility-target methods return exactly the cap
quantity. -/
theorem calculatePositionSize_fallback (rm : PM.PMRisk) (pv p vol conf : ℚ)
    (hp : 0 < p) (hvol : vol ≤ 0) (method : PM.PositionSizeMethod)
    (hmethod : method = .riskParity ∨ method = .volatilityTarget) :
    PM.calculatePositionSize rm pv p vol conf method =
      pv * rm.maxPositionSize / p := by
  rcases hmethod with h | h <;> subst h <;>
    simp only [PM.calculatePositionSize] <;> rw [if_neg]
  · intro hpos
    nlinarith
  · exact fun hpos => absurd hpos (not_lt.mpr hvol)

/-- Kernel-computed fact used to rewrite the embedded `str.upper()` calls
on the literal action strings. -/
theorem pyUpper_BUY : pyUpper "BUY" = "BUY" := by decide

/-- Kernel-computed fact used to rewrite the embedded `str.upper()` calls
on the literal action strings. -/
theorem pyUpper_SELL : pyUpper "SELL" = "SELL" := by decide

theorem reliance_ne_empty : ("RELIANCE" : String) ≠ "" := by decide

theorem x_ne_empty : ("X" : String) ≠ "" := by decide

theorem sell_ne_buy : ("SELL" : String) ≠ "BUY" := by decide

theorem buy_ne_sell : ("BUY" : String) ≠ "SELL" := by decide

theorem market_ne_limit : ("MARKET" : String) ≠ "LIMIT" := by decide

/-- The percent comparison in the concentration check is equivalent to the
absolute-exposure comparison whenever total capital is positive. -/
theorem concThreshold_iff (ne tc maxPct : ℚ) (htc : 0 < tc) :
    ne / tc * 100 > maxPct ↔ maxPct / 100 * tc < ne := by
  rw [gt_iff_lt, div_mul_eq_mul_div, lt_div_iff₀ htc, div_mul_eq_mul_div,
    div_lt_iff₀ (by norm_num : (0 : ℚ) < 100)]

/-! ## Concrete fixtures used by witnesses and counterexamples -/

/-- Default sizing configuration of `portfolio_manager.RiskManager`. -/
def pmDefaults : PM.PMRisk := {}

/-- A risk-manager state (limits as reset from a 10-lakh capital with the
default percentages) whose daily loss limit is already breached. -/
def haltedState : RiskMgr.RMState :=
  { maxPositionSizePct := 5, maxDailyLossPct := 3, stopLossPct := 2,
    maxConcentrationPct := 20, totalCapital := 1000000,
    maxPositionSize := 50000, maxDailyLoss := 30000, dailyPnl := -40000,
    currentPositions := [], riskViolations := [] }

/-- A structurally valid signal whose position value exceeds the
position-size limit of `haltedState`. -/
def sigBig : RiskMgr.Signal :=
  { symbol := "RELIANCE", action := "BUY", quantity := 100, price := 1000,
    stopLoss := some 995 }

/-- A risk-manager state with an existing 150,000 exposure in RELIANCE
out of a 10-lakh capital. -/
def concState : RiskMgr.RMState :=
  { maxPositionSizePct := 5, maxDailyLossPct := 3, stopLossPct := 2,
    maxConcentrationPct := 20, totalCapital := 1000000,
    maxPositionSize := 50000, maxDailyLoss := 30000, dailyPnl := 0,
    currentPositions :=
      [("RELIANCE", { quantity := 100, avgPrice := 1500, value := 150000 })],
    riskViolations := [] }

/-- A freshly initialized paper trader with the constructor defaults
(10-lakh capital, flat 20 commission, 5 bps slippage). -/
def freshPT : PT.PTState :=
  { enabled := true, initialCapital := 1000000, availableCapital := 1000000,
    commissionPerTrade := 20, slippageBps := 5, portfolio := [], trades := [],
    dailyPnl := 0 }

/-- A SELL signal for 10 shares of RELIANCE, an instrument the fresh
trader holds no position in. -/
def oversellSig : RiskMgr.Signal :=
  { symbol := "RELIANCE", action := "SELL", quantity := 10, price := 100,
    stopLoss := some 99 }

/-- A paper trader with 25 of capital. -/
def pt25 : PT.PTState :=
  { enabled := true, initialCapital := 25, availableCapital := 25,
    commissionPerTrade := 20, slippageBps := 5, portfolio := [], trades := [],
    dailyPnl := 0 }

/-- BUY one share of X at 2. -/
def buyOneSig : RiskMgr.Signal :=
  { symbol := "X", action := "BUY", quantity := 1, price := 2,
    stopLoss := some 1 }

/-- SELL one share of X at 2. -/
def sellOneSig : RiskMgr.Signal :=
  { symbol := "X", action := "SELL", quantity := 1, price := 2,
    stopLoss := some 1 }

/-- The dry-run engine right after an accepted simulated BUY of 10 shares
of X at 100 on a fresh 1-lakh engine. -/
def drBuyState : DR.DRState :=
  (DR.placeSimulatedOrder (DR.initEngine 100000) "X" 10 "MARKET" "BUY" none
    (some 100) 0).2

/-- A position of 10 shares of X entered at 100. -/
def pos8 : PM.PMPosition :=
  { ticker := "X", shares := 10, entryPrice := 100, currentPrice := 100,
    entryDate := 0, strategy := "s", confidence := 1 }

/-- A portfolio holding only `pos8`, with the default risk settings
(5% stop loss, 15% take profit). -/
def pf8 : PM.Portfolio :=
  { initialCapital := 100000, cash := 50000, positions := [("X", pos8)],
    trades := [], commissionRate := 1 / 1000, riskManager := pmDefaults,
    positionSizeMethod := .volatilityTarget, dailyValues := [],
    dailyReturns := [] }

/-- A price feed marking X at 94. -/
def prices94 : String → Option ℚ := fun t => if t = "X" then some 94 else none

/-- A price feed marking X at 96. -/
def prices96 : String → Option ℚ := fun t => if t = "X" then some 96 else none

/-- A portfolio with a flat two-sample return series (variance 0). -/
def p9flat : PM.Portfolio :=
  { initialCapital := 100, cash := 50, positions := [], trades := [],
    commissionRate := 1 / 1000, riskManager := pmDefaults,
    positionSizeMethod := .volatilityTarget, dailyValues := [],
    dailyReturns := [0, 0] }

/-- A portfolio with a single return sample. -/
def p9short : PM.Portfolio :=
  { initialCapital := 100, cash := 50, positions := [], trades := [],
    commissionRate := 1 / 1000, riskManager := pmDefaults,
    positionSizeMethod := .volatilityTarget, dailyValues := [],
    dailyReturns := [5] }

/-- A portfolio with zero cash, no positions (total value 0) and two
return samples. -/
def p9zero : PM.Portfolio :=
  { initialCapital := 100, cash := 0, positions := [], trades := [],
    commissionRate := 1 / 1000, riskManager := pmDefaults,
    positionSizeMethod := .volatilityTarget, dailyValues := [],
    dailyReturns := [1, 2] }

/-! ## The claims -/

/-- C5: for every signal, `validate_signal` applies its checks in the
fixed order structural validity, position-size limit, daily-loss limit,
concentration, stop-loss, short-circuiting at the first failing check;
every rejection appends exactly one violation record carrying the failing
check's type, an accepted signal appends none, and the validator is a
total function (no fatal error). -/
theorem C5_validator_ordering_audit (st : RiskMgr.RMState)
    (sig : RiskMgr.Signal) :
    RiskMgr.validateSignal st sig =
      match RiskMgr.firstFailingCheck st sig with
      | none => (true, st)
      | some v => (false, RiskMgr.logViolation st v) :=
  RiskMgr.validateSignal_spec st sig

/-- C4 (amended): in a state whose cumulative daily P&L is below
`−max_daily_loss`, every signal is rejected by `validate_signal` — but the
daily-loss check runs third, after the structural and position-size checks
(see the counterexample), so the rejection is not necessarily the
halted-state one; and `is_trading_halted` returns true exactly when the
daily loss limit is breached or the violation count exceeds 10. -/
theorem C4_daily_loss_halt (st : RiskMgr.RMState) (sig : RiskMgr.Signal) :
    (st.dailyPnl < -st.maxDailyLoss →
      (RiskMgr.validateSignal st sig).1 = false) ∧
    (RiskMgr.isTradingHalted st = true ↔
      (st.dailyPnl < -st.maxDailyLoss ∨ 10 < st.riskViolations.length)) := by
  constructor
  · intro hbreach
    rw [RiskMgr.validateSignal_spec]
    unfold RiskMgr.firstFailingCheck
    split_ifs <;> simp_all
  · unfold RiskMgr.isTradingHalted
    split_ifs <;> simp_all

/-- Witness for C4: in the breached fixture state both rejection and the
halt report fire. -/
theorem C4_daily_loss_halt_witness :
    (RiskMgr.validateSignal haltedState sigBig).1 = false ∧
      RiskMgr.isTradingHalted haltedState = true :=
  ⟨(C4_daily_loss_halt haltedState sigBig).1 (by norm_num [haltedState]),
   (C4_daily_loss_halt haltedState sigBig).2.mpr
     (Or.inl (by norm_num [haltedState]))⟩

/-- Counterexample for C4 as stated: with the daily loss already breached,
a signal failing the position-size check is rejected with the
`position_size_exceeded` violation — check 2 did run, so the halted state
does not short-circuit checks 2–5. -/
theorem C4_counterexample :
    haltedState.dailyPnl < -haltedState.maxDailyLoss ∧
    RiskMgr.validateSignal haltedState sigBig =
      (false, RiskMgr.logViolation haltedState .positionSizeExceeded) := by
  constructor
  · norm_num [haltedState]
  · norm_num [RiskMgr.validateSignal, RiskMgr.basicOk, haltedState, sigBig,
      pyUpper_BUY, reliance_ne_empty]

/-- C7: the post-trade exposure used by the concentration check is
`current + value` for a BUY and `max 0 (current − value)` otherwise, and
the check rejects with a concentration violation exactly when that
exposure exceeds `max_concentration_pct` percent of total capital. -/
theorem C7_concentration_check (st : RiskMgr.RMState) (sym : String)
    (positionValue : ℚ) (action : String) (htc : 0 < st.totalCapital) :
    RiskMgr.newExposure st sym positionValue action =
      (if action = "BUY" then RiskMgr.currentExposure st sym + positionValue
       else max 0 (RiskMgr.currentExposure st sym - positionValue)) ∧
    (RiskMgr.validateConcentrationRisk st sym positionValue action =
        (false, RiskMgr.logViolation st .concentrationRiskExceeded) ↔
      st.maxConcentrationPct / 100 * st.totalCapital <
        RiskMgr.newExposure st sym positionValue action) ∧
    (¬ st.maxConcentrationPct / 100 * st.totalCapital <
        RiskMgr.newExposure st sym positionValue action →
      RiskMgr.validateConcentrationRisk st sym positionValue action =
        (true, st)) := by
  refine ⟨rfl, ?_, ?_⟩
  · simp only [RiskMgr.validateConcentrationRisk]
    split_ifs with h
    · simp only [true_iff]
      exact (concThreshold_iff _ _ _ htc).mp h
    · constructor
      · intro hh
        simp at hh
      · intro hh
        exact absurd ((concThreshold_iff _ _ _ htc).mpr hh) h
  · intro hnot
    simp only [RiskMgr.validateConcentrationRisk]
    rw [if_neg]
    exact fun hpct => hnot ((concThreshold_iff _ _ _ htc).mp hpct)

/-- Witness for C7, and the spec's concrete instance: 10-lakh capital,
20% cap, a BUY pushing RELIANCE exposure to 250,000 is rejected with a
concentration violation. -/
theorem C7_witness :
    RiskMgr.newExposure concState "RELIANCE" 100000 "BUY" = 250000 ∧
    RiskMgr.validateConcentrationRisk concState "RELIANCE" 100000 "BUY" =
      (false, RiskMgr.logViolation concState .concentrationRiskExceeded) :=
  ⟨by norm_num [RiskMgr.newExposure, RiskMgr.currentExposure, concState,
      List.lookup],
   ((C7_concentration_check concState "RELIANCE" 100000 "BUY"
      (by norm_num [concState])).2.1).mpr
     (by norm_num [RiskMgr.newExposure, RiskMgr.currentExposure, concState,
       List.lookup])⟩

/-- C2: every sizing method returns a nonnegative quantity whose value at
the entry price is at most `max_position_size × portfolio_value`, and with
nonpositive volatility the risk-parity and volatility-target methods
return exactly the cap quantity. -/
theorem C2_sizing_cap (rm : PM.PMRisk) (pv p vol conf : ℚ)
    (method : PM.PositionSizeMethod) (hp : 0 < p) (hpv : 0 ≤ pv)
    (hc0 : 0 ≤ conf) (hc1 : conf ≤ 1) (hm : 0 ≤ rm.maxPositionSize)
    (hr : 0 ≤ rm.maxPortfolioRisk) :
    (0 ≤ PM.calculatePositionSize rm pv p vol conf method ∧
      PM.calculatePositionSize rm pv p vol conf method * p ≤
        rm.maxPositionSize * pv) ∧
    (vol ≤ 0 → (method = .riskParity ∨ method = .volatilityTarget) →
      PM.calculatePositionSize rm pv p vol conf method =
        pv * rm.maxPositionSize / p) :=
  ⟨calculatePositionSize_bounds rm pv p vol conf method hp hpv hc0 hm hr,
   fun hvol hmeth =>
     calculatePositionSize_fallback rm pv p vol conf hp hvol method hmeth⟩

/-- Witness for C2: with the default configuration, portfolio value
100,000, entry price 100, volatility −1 and confidence 1/2, the risk-parity
method returns the nonnegative cap quantity. -/
theorem C2_witness :
    PM.calculatePositionSize pmDefaults 100000 100 (-1) (1 / 2)
        .riskParity = 100000 * pmDefaults.maxPositionSize / 100 ∧
    0 ≤ PM.calculatePositionSize pmDefaults 100000 100 (-1) (1 / 2)
        .riskParity := by
  have h := C2_sizing_cap pmDefaults 100000 100 (-1) (1 / 2) .riskParity
    (by norm_num) (by norm_num) (by norm_num) (by norm_num)
    (by norm_num [pmDefaults]) (by norm_num [pmDefaults])
  exact ⟨h.2 (by norm_num) (Or.inl rfl), h.1.1⟩

/-- C10: with the fixed assumed magnitudes `avg_win = 0.1`,
`avg_loss = 0.05`, the kelly-criterion method returns 0 for every
confidence at most 1/3, and otherwise
`portfolio_value × min((0.15·conf − 0.05)/0.1, max_position_size) /
entry_price`. -/
theorem C10_kelly_dead_zone (rm : PM.PMRisk) (pv p vol conf : ℚ) :
    (conf ≤ 1 / 3 →
      PM.calculatePositionSize rm pv p vol conf .kellyCriterion = 0) ∧
    (1 / 3 < conf → 0 ≤ rm.maxPositionSize →
      PM.calculatePositionSize rm pv p vol conf .kellyCriterion =
        pv * min ((15 / 100 * conf - 5 / 100) / (1 / 10))
          rm.maxPositionSize / p) := by
  have heq : (conf * (1 / 10) - (1 - conf) * (1 / 20)) / (1 / 10) =
      (3 * conf - 1) / 2 := by ring
  constructor
  · intro hc
    simp only [PM.calculatePositionSize]
    rw [if_pos (by norm_num : (1 : ℚ) / 20 > 0), heq]
    have hle : min ((3 * conf - 1) / 2) rm.maxPositionSize ≤ 0 :=
      le_trans (min_le_left _ _) (by linarith)
    rw [max_eq_left hle]
    simp
  · intro hc hm
    simp only [PM.calculatePositionSize]
    rw [if_pos (by norm_num : (1 : ℚ) / 20 > 0), heq]
    have hform : (15 / 100 * conf - 5 / 100) / (1 / 10) =
        (3 * conf - 1) / 2 := by ring
    rw [hform, max_eq_right (le_min (by linarith) hm)]

/-- Witness for C10: the kelly quantity is 0 at confidence 1/4 and equals
the stated formula at confidence 1/2. -/
theorem C10_witness :
    PM.calculatePositionSize pmDefaults 100000 100 0 (1 / 4)
        .kellyCriterion = 0 ∧
    PM.calculatePositionSize pmDefaults 100000 100 0 (1 / 2)
        .kellyCriterion =
      100000 * min ((15 / 100 * (1 / 2) - 5 / 100) / (1 / 10))
        pmDefaults.maxPositionSize / 100 :=
  ⟨(C10_kelly_dead_zone pmDefaults 100000 100 0 (1 / 4)).1 (by norm_num),
   (C10_kelly_dead_zone pmDefaults 100000 100 0 (1 / 2)).2 (by norm_num)
     (by norm_num [pmDefaults])⟩

/-- C1 (amended): the invariant `total_value = cash + Σ quantity × price`
holds right after every call to `update_positions`, which recomputes the
recorded total; and `Portfolio.portfolio_value` is by definition cash plus
the sum of position market values.  (Between a trade execution and the next
`update_positions` call the recorded total is stale — see the
counterexample.) -/
theorem C1_total_value_identity (st : DR.DRState)
    (prices : String → Option ℚ) (pf : PM.Portfolio) :
    (DR.updatePositions st prices).totalValue =
      (DR.updatePositions st prices).availableCash +
        ((DR.updatePositions st prices).positions.map
          (fun e => (e.2.quantity : ℚ) * e.2.currentPrice)).sum ∧
    PM.portfolioValue pf =
      pf.cash + (pf.positions.map (fun e => e.2.marketValue)).sum :=
  ⟨rfl, rfl⟩

/-- Counterexample for C1 as stated: right after an accepted simulated BUY
(a mutation), the recorded `total_value` differs from cash plus position
value by the nonzero transaction cost, until `update_positions` runs. -/
theorem C1_counterexample :
    (DR.placeSimulatedOrder (DR.initEngine 100000) "X" 10 "MARKET" "BUY"
        none (some 100) 0).1.isSome = true ∧
    drBuyState.totalValue ≠ drBuyState.availableCash +
      (drBuyState.positions.map
        (fun e => (e.2.quantity : ℚ) * e.2.currentPrice)).sum := by
  constructor
  · norm_num [DR.placeSimulatedOrder, DR.initEngine,
      DR.calculateTransactionCost, DR.executeSimulatedOrder, setKey,
      market_ne_limit, buy_ne_sell]
  · norm_num [drBuyState, DR.placeSimulatedOrder, DR.initEngine,
      DR.calculateTransactionCost, DR.executeSimulatedOrder, setKey,
      market_ne_limit, buy_ne_sell]

/-! ## Association-list lemmas and the stop-loss/take-profit closure -/

theorem lookup_none_beq {α : Type} :
    ∀ {l : List (String × α)} {k : String}, l.lookup k = none →
      ∀ e ∈ l, (e.1 == k) = false := by
  intro l
  induction l with
  | nil => intro k _ e he; cases he
  | cons a as ih =>
    intro k h e he
    obtain ⟨k', v⟩ := a
    by_cases heq : k = k'
    · subst heq
      simp [List.lookup] at h
    · have hfalse : (k == k') = false := beq_eq_false_iff_ne.mpr heq
      have h' : as.lookup k = none := by
        simpa [List.lookup, hfalse] using h
      rcases List.mem_cons.mp he with rfl | hmem
      · exact beq_eq_false_iff_ne.mpr (Ne.symm heq)
      · exact ih h' e hmem

/-- `List.any` over a mapped list (for a type-changing map). -/
theorem list_any_map {α β : Type} (f : α → β) (l : List α) (p : β → Bool) :
    (l.map f).any p = l.any (fun a => p (f a)) := by
  induction l with
  | nil => rfl
  | cons a as ih => simp [List.any_cons, ih]

/-- The key of an entry is untouched by the price update of
`apply_risk_management`. -/
theorem updatePriceEntry_fst (prices : String → Option ℚ)
    (e : String × PM.PMPosition) :
    (PM.updatePriceEntry prices e).1 = e.1 := by
  unfold PM.updatePriceEntry
  cases prices e.1 <;> rfl

/-- One closing SELL deletes exactly the closed ticker from the position
map (if the ticker is absent the map is unchanged, which the filter also
expresses). -/
theorem sellClose_positions (prices : String → Option ℚ) (ts : ℕ)
    (pf : PM.Portfolio) (tr : String × String) :
    (PM.sellClose prices ts pf tr).positions =
      pf.positions.filter (fun e => !(e.1 == tr.1)) := by
  unfold PM.sellClose
  cases hlk : pf.positions.lookup tr.1 with
  | none =>
    symm
    apply List.filter_eq_self.mpr
    intro e he
    simp [lookup_none_beq hlk e he]
  | some pos =>
    simp [PM.executeTrade, hlk, eraseKey]

/-- The closing loop of `apply_risk_management` filters out exactly the
collected tickers. -/
theorem foldl_sellClose_positions (prices : String → Option ℚ) (ts : ℕ) :
    ∀ (L : List (String × String)) (pf : PM.Portfolio),
      (L.foldl (PM.sellClose prices ts) pf).positions =
        pf.positions.filter (fun e => !(L.any (fun c => e.1 == c.1))) := by
  intro L
  induction L with
  | nil => intro pf; simp
  | cons c cs ih =>
    intro pf
    rw [List.foldl_cons, ih, sellClose_positions, List.filter_filter]
    apply List.filter_congr
    intro e _
    simp only [List.any_cons, Bool.not_or]
    rw [Bool.and_comm]

/-- C8: for every portfolio with distinct position keys and every price
map, `apply_risk_management` leaves open exactly the (price-updated)
positions that are not marked in the price map or whose unrealized return
stays strictly inside `(−stop_loss_pct, take_profit_pct)`; every marked
position at or beyond a threshold is closed (sold entirely and removed). -/
theorem C8_stop_loss_take_profit (pf : PM.Portfolio)
    (prices : String → Option ℚ) (ts : ℕ)
    (hnd : (pf.positions.map Prod.fst).Nodup) :
    (PM.applyRiskManagement pf prices ts).positions =
      (pf.positions.map (PM.updatePriceEntry prices)).filter
        (fun e => !(decide (PM.closesEntry pf.riskManager prices e))) := by
  have hfst : (pf.positions.map (PM.updatePriceEntry prices)).map Prod.fst =
      pf.positions.map Prod.fst := by
    rw [List.map_map]
    exact List.map_congr_left fun e _ => updatePriceEntry_fst prices e
  have hnd' :
      ((pf.positions.map (PM.updatePriceEntry prices)).map Prod.fst).Nodup := by
    rw [hfst]; exact hnd
  unfold PM.applyRiskManagement
  rw [foldl_sellClose_positions]
  apply List.filter_congr
  intro e he
  have hany :
      (((pf.positions.map (PM.updatePriceEntry prices)).filter
          (fun x => decide (PM.closesEntry pf.riskManager prices x))).map
        (fun x => (x.1, if PM.shouldStopLoss pf.riskManager x.2 then "Stop Loss"
          else "Take Profit"))).any (fun c => e.1 == c.1) =
        decide (PM.closesEntry pf.riskManager prices e) := by
    rw [list_any_map]
    by_cases hc : PM.closesEntry pf.riskManager prices e
    · rw [decide_eq_true hc]
      apply List.any_eq_true.mpr
      refine ⟨e, List.mem_filter.mpr ⟨he, by simp [hc]⟩, by simp⟩
    · rw [decide_eq_false hc]
      apply List.any_eq_false.mpr
      intro e' he'
      obtain ⟨he'mem, he'cl⟩ := List.mem_filter.mp he'
      intro hbeq
      have hkey : e.1 = e'.1 := by
        simpa using hbeq
      have : e = e' :=
        List.inj_on_of_nodup_map hnd' he he'mem hkey
      subst this
      exact hc (by simpa using he'cl)
  rw [hany]

/-- Witness for C8, the spec's concrete instance: entry price 100 with a
5% stop loss — a mark price of 94 closes the position, a mark price of 96
leaves it open (with its price updated). -/
theorem C8_witness :
    (pf8.positions.map Prod.fst).Nodup ∧
    (PM.applyRiskManagement pf8 prices94 0).positions = [] ∧
    (PM.applyRiskManagement pf8 prices96 0).positions =
      [("X", { pos8 with currentPrice := 96 })] := by
  refine ⟨by simp [pf8, pos8], ?_, ?_⟩
  · rw [C8_stop_loss_take_profit pf8 prices94 0 (by simp [pf8, pos8])]
    norm_num [pf8, pos8, PM.updatePriceEntry, PM.closesEntry,
      PM.shouldStopLoss, PM.shouldTakeProfit, PM.PMPosition.unrealizedReturn,
      prices94, pmDefaults]
  · rw [C8_stop_loss_take_profit pf8 prices96 0 (by simp [pf8, pos8])]
    norm_num [pf8, pos8, PM.updatePriceEntry, PM.closesEntry,
      PM.shouldStopLoss, PM.shouldTakeProfit, PM.PMPosition.unrealizedReturn,
      prices96, pmDefaults]

/-! ## Non-negative accounting -/

theorem lookup_some_mem {α : Type} :
    ∀ {l : List (String × α)} {k : String} {v : α},
      l.lookup k = some v → (k, v) ∈ l := by
  intro l
  induction l with
  | nil => intro k v h; cases h
  | cons a as ih =>
    intro k v h
    obtain ⟨k', v'⟩ := a
    by_cases heq : k = k'
    · subst heq
      simp [List.lookup] at h
      subst h
      exact List.mem_cons_self _ _
    · have hfalse : (k == k') = false := beq_eq_false_iff_ne.mpr heq
      have h' : as.lookup k = some v := by
        simpa [List.lookup, hfalse] using h
      exact List.mem_cons_of_mem _ (ih h')

/-- Every entry of `setKey l k v` is either the inserted value or an entry
of `l`. -/
theorem setKey_mem {α : Type} {l : List (String × α)} {k : String} {v : α} :
    ∀ e ∈ setKey l k v, e.2 = v ∨ e ∈ l := by
  intro e he
  unfold setKey at he
  split_ifs at he with h
  · obtain ⟨a, ha, hae⟩ := List.mem_map.mp he
    by_cases hk : (a.1 == k) = true
    · rw [if_pos hk] at hae
      left
      rw [← hae]
    · rw [if_neg hk] at hae
      right
      rw [← hae]
      exact ha
  · rcases List.mem_append.mp he with h1 | h1
    · right; exact h1
    · left
      have : e = (k, v) := List.mem_singleton.mp h1
      rw [this]

/-- `_update_portfolio` keeps all position quantities nonnegative: a BUY
adds a positive quantity, a covered SELL subtracts at most the held
quantity, an oversell leaves the position untouched. -/
theorem updatePortfolio_quantity (portfolio : List (String × PT.PTPosition))
    (sym act : String) (q tv c tc : ℚ)
    (h : ∀ e ∈ portfolio, 0 ≤ e.2.quantity) (hq : 0 ≤ q) :
    ∀ e ∈ (PT.updatePortfolio portfolio sym act q tv c tc).1,
      0 ≤ e.2.quantity := by
  have hpos0 : 0 ≤ ((portfolio.lookup sym).getD ⟨0, 0, 0, 0⟩).quantity := by
    cases hlk : portfolio.lookup sym with
    | none => simp
    | some p => simpa using h _ (lookup_some_mem hlk)
  simp only [PT.updatePortfolio]
  by_cases hb : act = "BUY"
  · rw [if_pos hb]
    intro e he
    rcases setKey_mem e he with h4 | h4
    · rw [h4]
      exact add_nonneg hpos0 hq
    · exact h e h4
  · rw [if_neg hb]
    by_cases hs : act = "SELL"
    · rw [if_pos hs]
      by_cases hcov :
          ((portfolio.lookup sym).getD ⟨0, 0, 0, 0⟩).quantity ≥ q
      · rw [if_pos hcov]
        intro e he
        rcases setKey_mem e he with h4 | h4
        · rw [h4]
          exact sub_nonneg.mpr hcov
        · exact h e h4
      · rw [if_neg hcov]
        intro e he
        rcases setKey_mem e he with h4 | h4
        · rw [h4]; exact hpos0
        · exact h e h4
    · rw [if_neg hs]
      intro e he
      rcases setKey_mem e he with h4 | h4
      · rw [h4]; exact hpos0
      · exact h e h4

/-- `PaperTrader.execute_signal` keeps all position quantities
nonnegative. -/
theorem executeSignal_quantity (st : PT.PTState) (sig : RiskMgr.Signal)
    (h : ∀ e ∈ st.portfolio, 0 ≤ e.2.quantity) :
    ∀ e ∈ (PT.executeSignal st sig).2.portfolio, 0 ≤ e.2.quantity := by
  simp only [PT.executeSignal]
  by_cases h1 : ¬ st.enabled
  · rw [if_pos h1]; exact h
  · rw [if_neg h1]
    by_cases h2 : ¬ RiskMgr.basicOk sig
    · rw [if_pos h2]; exact h
    · rw [if_neg h2]
      have hbasic : RiskMgr.basicOk sig := not_not.mp h2
      split_ifs <;>
        first
          | exact h
          | exact updatePortfolio_quantity _ _ _ _ _ _ _ h hbasic.2.2.1.le

/-- An executed BUY in the paper trader is check-then-commit: it never
drives available capital negative. -/
theorem executeSignal_buy_cash (st : PT.PTState) (sig : RiskMgr.Signal)
    (h0 : 0 ≤ st.availableCapital) (hbuy : pyUpper sig.action = "BUY") :
    0 ≤ (PT.executeSignal st sig).2.availableCapital := by
  simp only [PT.executeSignal]
  by_cases h1 : ¬ st.enabled
  · rw [if_pos h1]; exact h0
  · rw [if_neg h1]
    by_cases h2 : ¬ RiskMgr.basicOk sig
    · rw [if_pos h2]; exact h0
    · rw [if_neg h2]
      simp only [hbuy, eq_self_iff_true, if_true, true_and]
      split_ifs with hgt
      · exact h0
      · exact sub_nonneg.mpr (not_lt.mp hgt)

/-- `Portfolio.execute_trade` keeps cash and all share counts
nonnegative. -/
theorem executeTrade_nonneg (pf : PM.Portfolio) (ticker action : String)
    (price : ℚ) (ts : ℕ) (strat : String) (conf : ℚ) (reason : String)
    (vol : ℚ) (hcash : 0 ≤ pf.cash) (hpv : 0 ≤ PM.portfolioValue pf)
    (hp : 0 < price) (hc0 : 0 ≤ conf)
    (hrate0 : 0 ≤ pf.commissionRate) (hrate1 : pf.commissionRate ≤ 1)
    (hm : 0 ≤ pf.riskManager.maxPositionSize)
    (hr : 0 ≤ pf.riskManager.maxPortfolioRisk)
    (hsh : ∀ e ∈ pf.positions, 0 ≤ e.2.shares) :
    0 ≤ (PM.executeTrade pf ticker action price ts strat conf reason
      vol).2.cash ∧
    ∀ e ∈ (PM.executeTrade pf ticker action price ts strat conf reason
      vol).2.positions, 0 ≤ e.2.shares := by
  have hsize := calculatePositionSize_bounds pf.riskManager
    (PM.portfolioValue pf) price vol conf pf.positionSizeMethod hp hpv hc0
    hm hr
  simp only [PM.executeTrade]
  split_ifs with hb hcost hs
  · constructor
    · simpa using sub_nonneg.mpr hcost
    · intro e he
      simp only at he
      cases hlk : pf.positions.lookup ticker with
      | some old =>
        rw [hlk] at he
        rcases setKey_mem e he with h4 | h4
        · rw [h4]
          exact add_nonneg (hsh _ (lookup_some_mem hlk)) hsize.1
        · exact hsh e h4
      | none =>
        rw [hlk] at he
        rcases List.mem_append.mp he with h4 | h4
        · exact hsh e h4
        · have : e = (ticker, _) := List.mem_singleton.mp h4
          rw [this]
          exact hsize.1
  · exact ⟨hcash, hsh⟩
  · cases hlk : pf.positions.lookup ticker with
    | some pos =>
      have hps : 0 ≤ pos.shares := hsh _ (lookup_some_mem hlk)
      constructor
      · show 0 ≤ pf.cash + (pos.shares * price - pos.shares * price *
          pf.commissionRate)
        nlinarith [mul_nonneg (mul_nonneg hps hp.le)
          (sub_nonneg.mpr hrate1)]
      · intro e he
        exact hsh e (List.mem_of_mem_filter he)
    | none =>
      exact ⟨hcash, hsh⟩
  · exact ⟨hcash, hsh⟩

/-- `RiskManager.update_position` keeps all tracked quantities
nonnegative: a SELL clamps at zero. -/
theorem updatePosition_quantity (st : RiskMgr.RMState) (sym act : String)
    (q : ℤ) (p : ℚ)
    (h : ∀ e ∈ st.currentPositions, 0 ≤ e.2.quantity) (hq : 0 ≤ q) :
    ∀ e ∈ (RiskMgr.updatePosition st sym act q p).currentPositions,
      0 ≤ e.2.quantity := by
  have hpos0 : 0 ≤ ((st.currentPositions.lookup sym).getD ⟨0, 0, 0⟩).quantity := by
    cases hlk : st.currentPositions.lookup sym with
    | none => simp
    | some pos => simpa using h _ (lookup_some_mem hlk)
  simp only [RiskMgr.updatePosition]
  by_cases hb : pyUpper act = "BUY"
  · rw [if_pos hb]
    intro e he
    rcases setKey_mem e he with h4 | h4
    · rw [h4]
      exact add_nonneg hpos0 hq
    · exact h e h4
  · rw [if_neg hb]
    by_cases hs : pyUpper act = "SELL"
    · rw [if_pos hs]
      by_cases hz : max 0
          (((st.currentPositions.lookup sym).getD ⟨0, 0, 0⟩).quantity - q) = 0
      · rw [if_pos hz]
        intro e he
        rcases setKey_mem e he with h4 | h4
        · rw [h4]
        · exact h e h4
      · rw [if_neg hz]
        intro e he
        rcases setKey_mem e he with h4 | h4
        · rw [h4]
          exact le_max_left _ _
        · exact h e h4
    · rw [if_neg hs]
      intro e he
      rcases setKey_mem e he with h4 | h4
      · rw [h4]; exact hpos0
      · exact h e h4

/-- C6 (amended): across the three accounting layers, no position quantity
ever becomes negative, and a BUY never drives cash negative
(check-then-commit); a `Portfolio.execute_trade` SELL only adds its
nonnegative net proceeds.  (The paper trader's SELL, however, deducts the
flat commission without a check and can drive cash negative — see the
counterexample.) -/
theorem C6_nonnegative_accounting :
    (∀ (st : PT.PTState) (sig : RiskMgr.Signal),
      (∀ e ∈ st.portfolio, 0 ≤ e.2.quantity) →
      ∀ e ∈ (PT.executeSignal st sig).2.portfolio, 0 ≤ e.2.quantity) ∧
    (∀ (st : PT.PTState) (sig : RiskMgr.Signal),
      0 ≤ st.availableCapital → pyUpper sig.action = "BUY" →
      0 ≤ (PT.executeSignal st sig).2.availableCapital) ∧
    (∀ (pf : PM.Portfolio) (ticker action : String) (price : ℚ) (ts : ℕ)
      (strat : String) (conf : ℚ) (reason : String) (vol : ℚ),
      0 ≤ pf.cash → 0 ≤ PM.portfolioValue pf → 0 < price → 0 ≤ conf →
      0 ≤ pf.commissionRate → pf.commissionRate ≤ 1 →
      0 ≤ pf.riskManager.maxPositionSize →
      0 ≤ pf.riskManager.maxPortfolioRisk →
      (∀ e ∈ pf.positions, 0 ≤ e.2.shares) →
      0 ≤ (PM.executeTrade pf ticker action price ts strat conf reason
        vol).2.cash ∧
      ∀ e ∈ (PM.executeTrade pf ticker action price ts strat conf reason
        vol).2.positions, 0 ≤ e.2.shares) ∧
    (∀ (st : RiskMgr.RMState) (sym act : String) (q : ℤ) (p : ℚ),
      (∀ e ∈ st.currentPositions, 0 ≤ e.2.quantity) → 0 ≤ q →
      ∀ e ∈ (RiskMgr.updatePosition st sym act q p).currentPositions,
        0 ≤ e.2.quantity) :=
  ⟨executeSignal_quantity, executeSignal_buy_cash,
   fun pf ticker action price ts strat conf reason vol h1 h2 h3 h4 h5 h6 h7
     h8 h9 =>
     executeTrade_nonneg pf ticker action price ts strat conf reason vol h1
       h2 h3 h4 h5 h6 h7 h8 h9,
   updatePosition_quantity⟩

/-- Witness for C6: the preserved invariants at concrete inputs. -/
theorem C6_witness :
    (∀ e ∈ (PT.executeSignal freshPT oversellSig).2.portfolio,
      0 ≤ e.2.quantity) ∧
    0 ≤ (PT.executeSignal pt25 buyOneSig).2.availableCapital :=
  ⟨C6_nonnegative_accounting.1 freshPT oversellSig (by simp [freshPT]),
   C6_nonnegative_accounting.2.1 pt25 buyOneSig (by norm_num [pt25])
     (by simp [buyOneSig, pyUpper_BUY])⟩

/-- Counterexample for C6 as stated: buying one share of X at 2 and then
selling it at 2 (flat commission 20 each way) leaves the paper trader's
cash strictly negative. -/
theorem C6_counterexample :
    (PT.executeSignal (PT.executeSignal pt25 buyOneSig).2
      sellOneSig).2.availableCapital < 0 := by
  norm_num [PT.executeSignal, PT.updatePortfolio, RiskMgr.basicOk, pt25,
    buyOneSig, sellOneSig, pyUpper_SELL, pyUpper_BUY, setKey, x_ne_empty,
    sell_ne_buy]

/-! ## Performance metrics: degenerate series -/

/-- `Rat.sqrt` has the sign behaviour of the float square root: positive
on positive inputs. -/
theorem ratSqrt_pos {q : ℚ} (hq : 0 < q) : 0 < Rat.sqrt q := by
  have hnum : 0 < q.num := Rat.num_pos.mpr hq
  have h1 : 0 < Int.sqrt q.num := by
    unfold Int.sqrt
    have : 0 < q.num.toNat := by omega
    exact_mod_cast Nat.sqrt_pos.mpr this
  have h2 : 0 < Nat.sqrt q.den := Nat.sqrt_pos.mpr q.pos
  unfold Rat.sqrt
  rw [Rat.mkRat_eq_divInt, Rat.divInt_eq_div]
  positivity

/-- `Rat.sqrt 0 = 0`, matching `np.sqrt`. -/
theorem ratSqrt_zero : Rat.sqrt 0 = 0 := by
  simpa using Rat.sqrt_eq 0

/-- Every cumulative product of factors `1 + r/100` with `r > −100` is
positive. -/
theorem cumprodAux_pos :
    ∀ (l : List ℚ) (acc : ℚ), 0 < acc → (∀ r ∈ l, -100 < r) →
      ∀ x ∈ PM.cumprodAux acc l, 0 < x := by
  intro l
  induction l with
  | nil => intro acc _ _ x hx; cases hx
  | cons r rs ih =>
    intro acc hacc hall x hx
    have hfac : 0 < 1 + r / 100 := by
      have := hall r (List.mem_cons_self _ _)
      linarith
    have hacc' : 0 < acc * (1 + r / 100) := mul_pos hacc hfac
    rcases List.mem_cons.mp hx with rfl | hx'
    · exact hacc'
    · exact ih _ hacc' (fun a ha => hall a (List.mem_cons_of_mem _ ha)) x hx'

theorem runMaxAux_pos :
    ∀ (l : List ℚ) (m : ℚ), 0 < m → (∀ x ∈ l, 0 < x) →
      ∀ y ∈ PM.runMaxAux m l, 0 < y := by
  intro l
  induction l with
  | nil => intro m _ _ y hy; cases hy
  | cons x xs ih =>
    intro m hm hl y hy
    have hmax : 0 < max m x := lt_max_iff.mpr (Or.inl hm)
    rcases List.mem_cons.mp hy with rfl | hy'
    · exact hmax
    · exact ih _ hmax (fun a ha => hl a (List.mem_cons_of_mem _ ha)) y hy'

/-- The running maximum of a positive series is positive. -/
theorem runMax_pos (l : List ℚ) (hl : ∀ x ∈ l, 0 < x) :
    ∀ y ∈ PM.runMax l, 0 < y := by
  cases l with
  | nil => intro y hy; cases hy
  | cons x xs =>
    intro y hy
    have hx : 0 < x := hl x (List.mem_cons_self _ _)
    rcases List.mem_cons.mp hy with rfl | hy'
    · exact hx
    · exact runMaxAux_pos xs x hx
        (fun a ha => hl a (List.mem_cons_of_mem _ ha)) y hy'

/-- The drawdown computation succeeds when no running maximum is zero. -/
theorem drawdownsE_ok :
    ∀ (l : List (ℚ × ℚ)), (∀ p ∈ l, p.2 ≠ 0) →
      ∃ ds, PM.drawdownsE l = .ok ds := by
  intro l
  induction l with
  | nil => exact fun _ => ⟨[], rfl⟩
  | cons p ps ih =>
    intro h
    obtain ⟨ds, hds⟩ := ih fun a ha => h a (List.mem_cons_of_mem _ ha)
    refine ⟨(p.1 - p.2) / p.2 * 100 :: ds, ?_⟩
    simp only [PM.drawdownsE,
      qdiv_ok (p.1 - p.2) (h p (List.mem_cons_self _ _)), hds]

/-- Rounding fixes zero. -/
theorem roundq_zero (d : ℕ) : roundq d 0 = 0 := by
  have h : ⌊(2⁻¹ : ℚ)⌋ = 0 :=
    Int.floor_eq_zero_iff.mpr (Set.mem_Ico.mpr (by norm_num))
  simp [roundq, h]

/-- C9 (amended): with fewer than 2 return samples the metric computation
returns the empty result, and the Sharpe ratio is 0 whenever the variance
of the return series is 0; under the additional conditions that the
portfolio's total value and initial capital are nonzero and every return
exceeds −100% — conditions the code does not check — no division in the
computation has a zero denominator.  (Without them the computation does
divide by zero: see the counterexample, where total value is 0 and the
cash-utilization term divides by it.) -/
theorem C9_degenerate_metrics :
    (∀ (sq : ℚ → ℚ) (pf : PM.Portfolio), pf.dailyReturns.length < 2 →
      PM.getPerformanceMetrics sq pf = .ok .empty) ∧
    (∀ (sq : ℚ → ℚ) (pf : PM.Portfolio),
      (∀ x, 0 < x → 0 < sq x) → sq 0 = 0 →
      2 ≤ pf.dailyReturns.length → PM.portfolioValue pf ≠ 0 →
      pf.initialCapital ≠ 0 → (∀ r ∈ pf.dailyReturns, -100 < r) →
      ∃ m, PM.getPerformanceMetrics sq pf = .ok (.metrics m) ∧
        (PM.varQ pf.dailyReturns = 0 → m.sharpeRatio = 0)) := by
  constructor
  · intro sq pf hlen
    simp only [PM.getPerformanceMetrics]
    rw [if_pos hlen]
  · intro sq pf hsq hsq0 hlen hpv hinit hret
    have hlen' : ¬ pf.dailyReturns.length < 2 := not_lt.mpr hlen
    have hsharpe : ∃ s,
        (if 0 < sq (PM.varQ pf.dailyReturns) then
          qdiv (PM.meanQ pf.dailyReturns * 252)
            (sq (PM.varQ pf.dailyReturns) * sq 252)
        else .ok 0) = .ok s ∧ (PM.varQ pf.dailyReturns = 0 → s = 0) := by
      by_cases hstd : 0 < sq (PM.varQ pf.dailyReturns)
      · refine ⟨PM.meanQ pf.dailyReturns * 252 /
          (sq (PM.varQ pf.dailyReturns) * sq 252), ?_, ?_⟩
        · rw [if_pos hstd]
          exact qdiv_ok _ (ne_of_gt (mul_pos hstd (hsq 252 (by norm_num))))
        · intro hv
          rw [hv, hsq0] at hstd
          exact absurd hstd (lt_irrefl 0)
      · exact ⟨0, by rw [if_neg hstd], fun _ => rfl⟩
    obtain ⟨s, hs, hs0⟩ := hsharpe
    have hdd : ∃ ds, PM.drawdownsE ((PM.cumprod pf.dailyReturns).zip
        (PM.runMax (PM.cumprod pf.dailyReturns))) = .ok ds := by
      apply drawdownsE_ok
      intro p hp
      obtain ⟨a, b⟩ := p
      have hmem := List.of_mem_zip hp
      have hcpos : ∀ x ∈ PM.cumprod pf.dailyReturns, 0 < x :=
        cumprodAux_pos pf.dailyReturns 1 one_pos hret
      exact (runMax_pos _ hcpos b hmem.2).ne'
    obtain ⟨ds, hds⟩ := hdd
    have hwr : ∃ w,
        (if 0 < (pf.trades.filter (fun t => t.action == "SELL")).length then
          qdiv ((pf.trades.filter (fun t => PM.winningSellB pf t)).length : ℚ)
            ((pf.trades.filter (fun t => t.action == "SELL")).length : ℚ)
        else .ok 0) = .ok w := by
      by_cases htt :
          0 < (pf.trades.filter (fun t => t.action == "SELL")).length
      · refine ⟨((pf.trades.filter (fun t => PM.winningSellB pf t)).length : ℚ) /
          ((pf.trades.filter (fun t => t.action == "SELL")).length : ℚ), ?_⟩
        rw [if_pos htt]
        exact qdiv_ok _ (by exact_mod_cast htt.ne')
      · exact ⟨0, by rw [if_neg htt]⟩
    obtain ⟨w, hw⟩ := hwr
    simp only [PM.getPerformanceMetrics]
    rw [if_neg hlen', qdiv_ok _ hinit, hs, hds, hw, qdiv_ok _ hpv]
    refine ⟨_, rfl, fun hv => ?_⟩
    simp only [hs0 hv]
    exact roundq_zero 3

/-- Witness for C9: on the return series `[0, 0]` (variance 0), with cash
50 of an initial 100, the computation succeeds and the Sharpe ratio is 0;
on the one-sample series `[5]` it returns the empty result. -/
theorem C9_witness :
    (∃ m, PM.getPerformanceMetrics Rat.sqrt p9flat = .ok (.metrics m) ∧
      m.sharpeRatio = 0) ∧
    PM.getPerformanceMetrics Rat.sqrt p9short = .ok .empty := by
  constructor
  · obtain ⟨m, hm, hm0⟩ := C9_degenerate_metrics.2 Rat.sqrt p9flat
      (fun x hx => ratSqrt_pos hx) ratSqrt_zero (by norm_num [p9flat])
      (by norm_num [p9flat, PM.portfolioValue])
      (by norm_num [p9flat]) (by norm_num [p9flat])
    exact ⟨m, hm, hm0 (by norm_num [PM.varQ, PM.meanQ, p9flat])⟩
  · exact C9_degenerate_metrics.1 Rat.sqrt p9short (by norm_num [p9short])

/-- Counterexample for C9 as stated: a portfolio with zero total value and
two return samples reaches the cash-utilization term, whose division by
total value is a division by zero. -/
theorem C9_counterexample :
    PM.getPerformanceMetrics Rat.sqrt p9zero = .error "ZeroDivisionError" := by
  have hvar : PM.varQ p9zero.dailyReturns = 1 / 4 := by
    norm_num [PM.varQ, PM.meanQ, p9zero]
  have hstd : 0 < Rat.sqrt (PM.varQ p9zero.dailyReturns) := by
    rw [hvar]
    exact ratSqrt_pos (by norm_num)
  have hpv : PM.portfolioValue p9zero = 0 := by
    norm_num [PM.portfolioValue, p9zero]
  simp only [PM.getPerformanceMetrics]
  rw [if_neg (by norm_num [p9zero])]
  rw [qdiv_ok _ (by norm_num [p9zero] : p9zero.initialCapital ≠ 0)]
  rw [if_pos hstd]
  rw [qdiv_ok _ (ne_of_gt (mul_pos hstd (ratSqrt_pos (by norm_num))))]
  have hdd : ∃ ds, PM.drawdownsE ((PM.cumprod p9zero.dailyReturns).zip
      (PM.runMax (PM.cumprod p9zero.dailyReturns))) = .ok ds := by
    apply drawdownsE_ok
    intro p hp
    obtain ⟨a, b⟩ := p
    have hmem := List.of_mem_zip hp
    have hcpos : ∀ x ∈ PM.cumprod p9zero.dailyReturns, 0 < x :=
      cumprodAux_pos p9zero.dailyReturns 1 one_pos
        (by norm_num [p9zero])
    exact (runMax_pos _ hcpos b hmem.2).ne'
  obtain ⟨ds, hds⟩ := hdd
  rw [hds]
  rw [if_neg (by norm_num [p9zero] :
    ¬ 0 < (p9zero.trades.filter (fun t => t.action == "SELL")).length)]
  rw [show qdiv p9zero.cash (PM.portfolioValue p9zero) =
    .error "ZeroDivisionError" by rw [hpv]; rfl]

/-- C3 (the code at the claim's failing input): a SELL of 10 shares of an
instrument the paper trader holds no position in is *executed*, not
rejected — the result reports success, cash is credited with the slipped
proceeds minus commission, the trade is appended to the ledger, and only
the position map is left at zero; and the dry-run engine likewise returns
a success order id for a SELL of 5 unheld shares and appends the order,
merely leaving cash and positions unchanged. -/
theorem C3_oversell_executed :
    ((PT.executeSignal freshPT oversellSig).1.executed = true ∧
      (PT.executeSignal freshPT oversellSig).2.availableCapital =
        1000000 + 2000000 / 2001 - 20 ∧
      (PT.executeSignal freshPT oversellSig).2.trades.length = 1 ∧
      (PT.executeSignal freshPT oversellSig).2.portfolio.lookup "RELIANCE" =
        some ⟨0, 0, 0, 0⟩) ∧
    ((DR.placeSimulatedOrder (DR.initEngine 100000) "X" 5 "MARKET" "SELL"
        none (some 100) 0).1.isSome = true ∧
      (DR.placeSimulatedOrder (DR.initEngine 100000) "X" 5 "MARKET" "SELL"
        none (some 100) 0).2.availableCash = 100000 ∧
      (DR.placeSimulatedOrder (DR.initEngine 100000) "X" 5 "MARKET" "SELL"
        none (some 100) 0).2.positions = [] ∧
      (DR.placeSimulatedOrder (DR.initEngine 100000) "X" 5 "MARKET" "SELL"
        none (some 100) 0).2.orders.length = 1) := by
  constructor
  · refine ⟨?_, ?_, ?_, ?_⟩ <;>
      norm_num [PT.executeSignal, PT.updatePortfolio, RiskMgr.basicOk,
        freshPT, oversellSig, pyUpper_SELL, setKey, List.lookup,
        reliance_ne_empty, sell_ne_buy]
  · refine ⟨?_, ?_, ?_, ?_⟩ <;>
      norm_num [DR.placeSimulatedOrder, DR.initEngine,
        DR.calculateTransactionCost, DR.executeSimulatedOrder, setKey,
        List.lookup, market_ne_limit, sell_ne_buy]
